import Mathlib

/-!
Verification of the Abiquo external inventory script
(`abiquo_inventory.py`) against its natural-language specification.

The script is a single-file Python 2 program.  Its pure data
transformations (flattening NIC/disk records, extracting link titles,
renaming host-variable keys, sanitizing group-name components, the
cache-freshness test) are embedded below as executable Lean functions,
and its stateful per-VM traversal (`generate_inv_from_api`) is embedded
as explicit state passing over a `LoopState`, with Python exceptions
modelled by an `Except` monad.  Python dictionaries are modelled as
association lists whose insertion (`upsert`) overwrites the binding of
an existing key in place, matching `d[k] = v`.
-/

/-- Association-list lookup, `d[k]` / `k in d`: first binding wins
(Python dict keys are unique, so at most one binding exists). -/
def alookup {α : Type} (d : List (String × α)) (k : String) : Option α :=
  match d with
  | [] => none
  | kv :: rest => if kv.1 = k then some kv.2 else alookup rest k

/-- Association-list insertion, `d[k] = v`: overwrite the existing
binding of `k` if present, otherwise append the new binding at the end. -/
def upsert {α : Type} (d : List (String × α)) (k : String) (v : α) : List (String × α) :=
  match d with
  | [] => [(k, v)]
  | kv :: rest => if kv.1 = k then (k, v) :: rest else kv :: upsert rest k v

/-- Association-list deletion, `d.pop(k)`: remove the binding(s) of `k`
(a Python dict holds at most one). -/
def aremove {α : Type} (d : List (String × α)) (k : String) : List (String × α) :=
  match d with
  | [] => []
  | kv :: rest => if kv.1 = k then aremove rest k else kv :: aremove rest k

/-- `dict(items)`: build a dict from a list of pairs, later duplicates
overwriting earlier ones.  Models `dict(a.items() + b.items() + ...)`. -/
def dictOfItems (items : List (String × String)) : List (String × String) :=
  items.foldl (fun d kv => upsert d kv.1 kv.2) []

/-- Boolean list-prefix test (used to embed Python `str.startswith`). -/
def prefixOfCheck : List Char → List Char → Bool
  | [], _ => true
  | _ :: _, [] => false
  | a :: as, b :: bs => if a = b then prefixOfCheck as bs else false

/-- Python `s.startswith(pre)`. -/
def pyStartsWith (s pre : String) : Bool :=
  prefixOfCheck pre.toList s.toList

/-- Boolean substring test on character lists (Python `pat in s`). -/
def hasSub (pat : List Char) : List Char → Bool
  | [] => pat.isEmpty
  | c :: rest => prefixOfCheck pat (c :: rest) || hasSub pat rest

/-- Python `s in t` on strings. -/
def pyContains (t pat : String) : Bool :=
  hasSub pat.toList t.toList

/-- Python `s.replace(pat, rep)` for a single-character pattern (every
call site in the script uses a one-character pattern).  For such a
pattern Python replaces each occurrence of the character. -/
def pyReplace1 (s : String) (pat : Char) (rep : String) : String :=
  ⟨s.toList.foldr (fun c acc => if c = pat then rep.toList ++ acc else c :: acc) []⟩

/-- The group-name sanitization used throughout `generate_inv_from_api`:
`title.replace('[','').replace(']','').replace(' ','_')`. -/
def sanitize (s : String) : String :=
  pyReplace1 (pyReplace1 (pyReplace1 s '[' "") ']' "") ' ' "_"

/-- A hyperlink on an API resource: the `rel`/`title`/`type` triple
(`type` is rendered `ty`, `type` being reserved in Lean). -/
structure Link where
  rel : String
  title : String
  ty : String
deriving DecidableEq

/-- A network-interface record: the required `sequence` attribute, the
required `links` attribute, and the remaining key/value attributes
(values rendered opaquely as strings; no claim inspects their shape).
`attrs` holds neither a `sequence` nor a `links` key. -/
structure Nic where
  sequence : Nat
  attrs : List (String × String)
  links : List Link
deriving DecidableEq

/-- A hard-disk or volume record, same shape as `Nic`. -/
structure Disk where
  sequence : Nat
  attrs : List (String × String)
  links : List Link
deriving DecidableEq

/-- The non-`links` entries of a NIC dict, in iteration order: the
`sequence` key (the Python dict stores the integer; rendered here via
`Nat.repr`) followed by the remaining attributes. -/
def Nic.entries (n : Nic) : List (String × String) :=
  ("sequence", Nat.repr n.sequence) :: n.attrs

/-- The non-`links` entries of a disk dict (see `Nic.entries`). -/
def Disk.entries (d : Disk) : List (String × String) :=
  ("sequence", Nat.repr d.sequence) :: d.attrs

/-- The ordered sequence of dict assignments one NIC performs in
`nic_json_to_dict`: one `nic<sequence>_<key>` entry per non-`links` key,
then `nic<sequence>_net_type` set to the rel of the first link whose rel
contains `"network"` (`filter(...)[0]`), when one exists. -/
def nicEmits (nic : Nic) : List (String × String) :=
  let nic_rel := "nic" ++ Nat.repr nic.sequence
  nic.entries.map (fun kv => (nic_rel ++ "_" ++ kv.1, kv.2)) ++
    (match nic.links.filter (fun x => pyContains x.rel "network") with
     | [] => []
     | l :: _ => [(nic_rel ++ "_net_type", l.rel)])

/-- The ordered sequence of dict assignments one disk performs in
`disk_json_to_dict`: one `disk<sequence>_<key>` entry per non-`links`
key, then `disk<sequence>_tier` set to the title of the first link whose
rel contains `"tier"`, when one exists. -/
def diskEmits (disk : Disk) : List (String × String) :=
  let disk_rel := "disk" ++ Nat.repr disk.sequence
  disk.entries.map (fun kv => (disk_rel ++ "_" ++ kv.1, kv.2)) ++
    (match disk.links.filter (fun x => pyContains x.rel "tier") with
     | [] => []
     | l :: _ => [(disk_rel ++ "_tier", l.title)])

/-- Perform a sequence of dict assignments on `d`, in order. -/
def applyEmits (d : List (String × String)) (es : List (String × String)) :
    List (String × String) :=
  es.foldl (fun d kv => upsert d kv.1 kv.2) d

/-- `AbiquoInventory.nic_json_to_dict`: fold every NIC's assignments
into one dict, starting from the empty dict. -/
def nic_json_to_dict (nics : List Nic) : List (String × String) :=
  nics.foldl (fun d nic => applyEmits d (nicEmits nic)) []

/-- `AbiquoInventory.disk_json_to_dict`: fold every disk's assignments
into one dict, starting from the empty dict. -/
def disk_json_to_dict (disks : List Disk) : List (String × String) :=
  disks.foldl (fun d disk => applyEmits d (diskEmits disk)) []

/-- The fixed allow-list of link relations whose titles become host
variables (`link_rels` in `vars_from_json`). -/
def link_rels : List String :=
  ["category", "virtualmachinetemplate", "hypervisortype", "ip", "location",
   "hardwareprofile", "state", "network_configuration", "virtualappliance",
   "virtualdatacenter", "user", "enterprise"]

/-- An enriched VM JSON document as consumed by `vars_from_json`: the
`nics`, `disks` and `links` keys, plus every remaining top-level
key/value pair (values rendered opaquely as strings).  `attrs` holds
none of the keys `links`, `nics`, `disks`, so the three `del`
statements of the source are already accounted for. -/
structure VMJson where
  nics : List Nic
  disks : List Disk
  links : List Link
  attrs : List (String × String)
deriving DecidableEq

/-- One step of the key-renaming loop at the end of `vars_from_json`:
`if not i.startswith('abq'): d['abq_%s' % i] = d.pop(i)`. -/
def renameStep (d : List (String × String)) (i : String) : List (String × String) :=
  if pyStartsWith i "abq" then d
  else
    match alookup d i with
    | none => d
    | some v => upsert (aremove d i) ("abq_" ++ i) v

/-- The key-renaming loop of `vars_from_json`, iterating over the keys
of `d` (iterating a live dict whose size is restored after each
pop/insert pair behaves as iteration over the original key set; freshly
inserted keys begin with `abq` and would be no-ops if revisited). -/
def renameKeys (d : List (String × String)) : List (String × String) :=
  (d.map Prod.fst).foldl renameStep d

/-- `AbiquoInventory.vars_from_json`: merge the flattened NIC fields,
the flattened disk fields, the allow-listed link titles (first link of
each rel wins) and the remaining top-level attributes, with later items
overwriting earlier ones, then run the `abq` renaming pass. -/
def vars_from_json (vm : VMJson) : List (String × String) :=
  let host_vars := dictOfItems (nic_json_to_dict vm.nics ++ disk_json_to_dict vm.disks)
  let link_dict := link_rels.foldl
    (fun d rel =>
      match vm.links.filter (fun y => y.rel = rel) with
      | [] => d
      | l :: _ => upsert d l.rel l.title) []
  let d := dictOfItems (host_vars ++ link_dict ++ vm.attrs)
  renameKeys d

/-- The inventory document: the optional `_meta` key holding the
`hostvars` mapping (host identifier to flattened variable dict), plus
the group lists.  The bare empty mapping `\x7b\x7d` is `⟨none, []⟩`;
group names always carry a prefix such as `template_` or `var_`, so the
`g not in inventory` membership test of the source never collides with
the `_meta` key and is modelled over `groups` alone. -/
structure Inventory where
  meta : Option (List (String × List (String × String)))
  groups : List (String × List String)
deriving DecidableEq

/-- `AbiquoInventory._empty_inventory`. -/
def empty_inventory : Inventory :=
  ⟨some [], []⟩

/-- `inventory['_meta']['hostvars'][id] = hv`.  Within
`generate_inv_from_api` the inventory always descends from
`_empty_inventory`, so `meta` is always present; the `getD []` default
is unreachable there. -/
def Inventory.setHostvar (inv : Inventory) (id : String)
    (hv : List (String × String)) : Inventory :=
  { inv with meta := some (upsert (inv.meta.getD []) id hv) }

/-- `if g not in inventory: inventory[g] = []` followed by
`inventory[g].append(id)`. -/
def Inventory.addToGroup (inv : Inventory) (g : String) (id : String) : Inventory :=
  match alookup inv.groups g with
  | none => { inv with groups := inv.groups ++ [(g, [id])] }
  | some l => { inv with groups := upsert inv.groups g (l ++ [id]) }

/-- The environment `cache_available` inspects: whether each config
option is present, the file mtime when `os.stat` succeeds (`none` when
it raises), and the current integer time. -/
structure CacheEnv where
  cache_dir : Option String
  stat_mtime : Option Int
  cache_max_age : Option Int
  now : Int
deriving DecidableEq

/-- `AbiquoInventory.cache_available`: fresh only when a cache dir is
configured, `os.stat` succeeds, a max age is configured, and
`now - mtime <= max_age`. -/
def cache_available (e : CacheEnv) : Bool :=
  match e.cache_dir with
  | none => false
  | some _ =>
    match e.stat_mtime with
    | none => false
    | some mtime =>
      match e.cache_max_age with
      | none => false
      | some maxage => decide (e.now - mtime ≤ maxage)

/-- `AbiquoInventory.get_cache`: `inv` starts as the bare empty mapping;
an `IOError` while opening or reading the cache file is swallowed and
the bare empty mapping is returned, otherwise the parsed document. -/
def get_cache (readResult : Except Unit Inventory) : Inventory :=
  match readResult with
  | .error _ => ⟨none, []⟩
  | .ok doc => doc

/-- The document `__init__` emits on standard output: regenerate when
`--refresh-cache` is passed or the cache is not fresh, else serve the
cache. -/
def mainOutput (refresh : Bool) (cenv : CacheEnv)
    (readResult : Except Unit Inventory) (genResult : Inventory) : Inventory :=
  if refresh then genResult
  else if !(cache_available cenv) then genResult
  else get_cache readResult

/-- A raised Python exception: `exc` is an ordinary `Exception` (caught
by the `except Exception` of `generate_inv_from_api`), `exit` is the
`SystemExit` raised by `sys.exit` inside `fail_with_error`, which that
handler does not catch. -/
inductive PyErr where
  | exc (msg : String)
  | exit (code : Nat)
deriving DecidableEq

/-- The `defaults` section of the configuration. -/
structure Config where
  get_metadata : Bool
  public_ip_only : Bool
  deployed_only : Bool
  default_net_interface : String
deriving DecidableEq

/-- One VM as returned by the API, together with the status code and
payload of each follow-relation sub-fetch the enrichment performs.
`otherAttrs` are the remaining top-level keys of `vm.json` (values
rendered opaquely); `varsAttr` is the optional `variables` attribute,
a dict of strings.  `templatePayload` and `metadataPayload` stand for
the rendered template attributes (links already deleted) and metadata
document. -/
structure VM where
  state : String
  links : List Link
  otherAttrs : List (String × String)
  varsAttr : Option (List (String × String))
  nicsCode : Nat
  nicsPayload : List Nic
  disksCode : Nat
  disksPayload : List Disk
  volsCode : Nat
  volsPayload : List Disk
  templateCode : Nat
  templatePayload : String
  metadataCode : Nat
  metadataPayload : String
deriving DecidableEq

/-- Modelled from the spec: the external client's `check_response`
(from `abiquo.client`, not part of this repository) raises an ordinary
exception when the response status differs from the expected success
code passed at every call site (200). -/
def check_response (expected code : Nat) : Except PyErr Unit :=
  if code = expected then .ok () else .error (.exc ("unexpected status " ++ Nat.repr code))

/-- `AbiquoInventory.get_vm_nics`: on a bad status the handler calls
the unbound module-level name `fail_with_error` (the source omits
`self.`), so a `NameError` — an ordinary exception — propagates instead
of the intended traceback-and-exit. -/
def get_vm_nics (vm : VM) : Except PyErr (List Nic) :=
  match check_response 200 vm.nicsCode with
  | .ok _ => .ok vm.nicsPayload
  | .error _ => .error (.exc "NameError: global name fail_with_error is not defined")

/-- `AbiquoInventory.get_vm_disks` (same unbound `fail_with_error`). -/
def get_vm_disks (vm : VM) : Except PyErr (List Disk) :=
  match check_response 200 vm.disksCode with
  | .ok _ => .ok vm.disksPayload
  | .error _ => .error (.exc "NameError: global name fail_with_error is not defined")

/-- `AbiquoInventory.get_vm_volumes` (same unbound `fail_with_error`). -/
def get_vm_volumes (vm : VM) : Except PyErr (List Disk) :=
  match check_response 200 vm.volsCode with
  | .ok _ => .ok vm.volsPayload
  | .error _ => .error (.exc "NameError: global name fail_with_error is not defined")

/-- `AbiquoInventory.get_vm_template` (same unbound `fail_with_error`). -/
def get_vm_template (vm : VM) : Except PyErr String :=
  match check_response 200 vm.templateCode with
  | .ok _ => .ok vm.templatePayload
  | .error _ => .error (.exc "NameError: global name fail_with_error is not defined")

/-- `AbiquoInventory.update_vm_metadata`: this one calls
`self.fail_with_error`, which writes to stderr and runs `sys.exit(1)` —
a `SystemExit` the generator's `except Exception` does not catch. -/
def update_vm_metadata (vm : VM) : Except PyErr String :=
  match check_response 200 vm.metadataCode with
  | .ok _ => .ok vm.metadataPayload
  | .error _ => .error (.exit 1)

/-- `AbiquoInventory.update_vm_disks_and_nics`: fetch NICs, hard disks
and volumes; the volume records are appended into the same `disks`
list after the hard-disk records. -/
def update_vm_disks_and_nics (vm : VM) : Except PyErr (List Nic × List Disk) :=
  match get_vm_nics vm with
  | .error e => .error e
  | .ok nics =>
    match get_vm_disks vm with
    | .error e => .error e
    | .ok disks =>
      match get_vm_volumes vm with
      | .error e => .error e
      | .ok vols => .ok (nics, disks ++ vols)

/-- The enriched `vm.json` handed to `vars_from_json`: the original
top-level attributes (`state`, the optional `variables` dict, the
rest), plus the `template` attribute set by `update_vm_template` and,
when `get_metadata` is set, the `metadata` attribute. -/
def enrichedJson (vm : VM) (nics : List Nic) (disks : List Disk)
    (withMeta : Bool) : VMJson :=
  { nics := nics
    disks := disks
    links := vm.links
    attrs :=
      ("state", vm.state) ::
        (match vm.varsAttr with
         | none => []
         | some vs => [("variables", toString vs)]) ++
        vm.otherAttrs ++
        [("template", vm.templatePayload)] ++
        (if withMeta then [("metadata", vm.metadataPayload)] else []) }

/-- The four link-derived display names scanned at the top of the
per-VM loop (lines 316-325): `hw` (`hw_profile`) is freshly reset to
the empty string each iteration, while `vapp`, `vdc` and `tmpl` are
plain Python locals of `generate_inv_from_api` and keep whatever value
the previous iteration left when the current VM has no matching link
(`none` models a still-unbound name). -/
structure TitleVars where
  vapp : Option String
  vdc : Option String
  tmpl : Option String
  hw : String
deriving DecidableEq

/-- The link-title scan of lines 316-325, threaded over the link list
in order; each matching link overwrites the sanitized title. -/
def scanTitles (links : List Link) (tv : TitleVars) : TitleVars :=
  links.foldl
    (fun tv link =>
      if link.rel = "virtualappliance" then { tv with vapp := some (sanitize link.title) }
      else if link.rel = "virtualdatacenter" then { tv with vdc := some (sanitize link.title) }
      else if link.rel = "virtualmachinetemplate" then { tv with tmpl := some (sanitize link.title) }
      else if link.rel = "hardwareprofile" then { tv with hw := sanitize link.title }
      else tv) tv

/-- The host-identifier selection loop (lines 328-345).  Per link:
a match assigns the title and breaks, a non-match assigns `None` and
continues — so the first match wins, a non-empty list with no match
leaves `None`, and an empty link list leaves `vm_nic` entirely
untouched (the leaked value of the previous iteration, or unbound). -/
def selectLoop (prev : Option (Option String)) (links : List Link)
    (p : Link → Bool) : Option (Option String) :=
  match links with
  | [] => prev
  | _ :: _ =>
    match links.find? p with
    | some l => some (some l.title)
    | none => some none

/-- The per-link predicate of the identifier selection: the public-IP
test when `public_ip_only` is set, else the configured
`default_net_interface` relation. -/
def nicPred (cfg : Config) (l : Link) : Bool :=
  if cfg.public_ip_only then
    l.ty = "application/vnd.abiquo.publicip+json" && l.rel = "ip"
  else
    l.rel = cfg.default_net_interface

/-- The Python locals of `generate_inv_from_api` threaded across loop
iterations, plus the inventory being built.  `none` in the three
`Option (…)` fields models a still-unbound name (reading it raises
`NameError`); `vm_nic = some none` models the Python value `None`. -/
structure LoopState where
  inventory : Inventory
  vm_nic : Option (Option String)
  vm_vapp : Option String
  vm_vdc : Option String
  vm_template : Option String
deriving DecidableEq

/-- The custom-variable grouping loop (lines 392-399): for each
key/value pair of the `variables` dict, sanitize both and append the
identifier into `var_<key>_<value>`. -/
def addVarGroups (inv : Inventory) (vars : Option (List (String × String)))
    (nic : String) : Inventory :=
  match vars with
  | none => inv
  | some vs =>
    vs.foldl (fun inv kv => inv.addToGroup ("var_" ++ sanitize kv.1 ++ "_" ++ sanitize kv.2) nic) inv

/-- Lines 356-399: record the host variables under the identifier,
then append the identifier into the template, vApp, VDC, VDC-vApp,
optional hardware-profile and custom-variable groups. -/
def recordVM (inv : Inventory) (nic : String) (host_vars : List (String × String))
    (vt va vd hw : String) (vars : Option (List (String × String))) : Inventory :=
  let inv := inv.setHostvar nic host_vars
  let inv := inv.addToGroup ("template_" ++ vt) nic
  let inv := inv.addToGroup ("vapp_" ++ va) nic
  let inv := inv.addToGroup ("vdc_" ++ vd) nic
  let inv := inv.addToGroup ("vdc_" ++ vd ++ "_vapp_" ++ va) nic
  let inv := if hw ≠ "" then inv.addToGroup ("hwprof_" ++ hw) nic else inv
  addVarGroups inv vars nic

/-- The pure tail of one iteration of the per-VM loop, after the
sub-fetches succeeded: compute host vars, scan link titles, select the
identifier, apply the skip policies, then record host vars and group
memberships.  Inventory mutations made before a raised `NameError` are
discarded by the outer handler together with the rest of the state, so
the group-append block is entered only once all three leaked title
names are bound (the source would raise at the first unbound one). -/
def processVMCore (cfg : Config) (st : LoopState) (vm : VM)
    (nics : List Nic) (disks : List Disk) : Except PyErr LoopState :=
  let host_vars := vars_from_json (enrichedJson vm nics disks cfg.get_metadata)
  let tv := scanTitles vm.links ⟨st.vm_vapp, st.vm_vdc, st.vm_template, ""⟩
  let nicSel := selectLoop st.vm_nic vm.links (nicPred cfg)
  let st1 : LoopState := ⟨st.inventory, nicSel, tv.vapp, tv.vdc, tv.tmpl⟩
  match nicSel with
  | none => .error (.exc "NameError: name vm_nic is not defined")
  | some none => .ok st1
  | some (some nic) =>
    if cfg.deployed_only ∧ vm.state = "NOT_ALLOCATED" then .ok st1
    else
      match tv.tmpl, tv.vapp, tv.vdc with
      | some vt, some va, some vd =>
        .ok { st1 with
          inventory := recordVM st1.inventory nic host_vars vt va vd tv.hw vm.varsAttr }
      | _, _, _ => .error (.exc "NameError: unbound group title")

/-- One full iteration of the per-VM loop: the enrichment sub-fetches
in source order (NICs, hard disks, volumes, template, then metadata
when configured), then the pure tail. -/
def processVM (cfg : Config) (st : LoopState) (vm : VM) : Except PyErr LoopState :=
  match update_vm_disks_and_nics vm with
  | .error e => .error e
  | .ok (nics, disks) =>
    match get_vm_template vm with
    | .error e => .error e
    | .ok _ =>
      match (if cfg.get_metadata then (update_vm_metadata vm).map (fun _ => ()) else .ok ()) with
      | .error e => .error e
      | .ok _ => processVMCore cfg st vm nics disks

/-- The whole per-VM traversal, stopping at the first raised
exception. -/
def processVMs (cfg : Config) (vms : List VM) (st : LoopState) :
    Except PyErr LoopState :=
  match vms with
  | [] => .ok st
  | vm :: rest =>
    match processVM cfg st vm with
    | .ok st2 => processVMs cfg rest st2
    | .error e => .error e

/-- The VM collection fetch: status code of
`cloud.virtualmachines.get` and the returned VMs. -/
structure ApiEnv where
  vmsCode : Nat
  vms : List VM
deriving DecidableEq

/-- Outcome of one run of `generate_inv_from_api`: either the function
returns a document (with whatever was written to the error stream), or
the process exits via `sys.exit`. -/
inductive RunResult where
  | ok (inv : Inventory) (errLog : List String)
  | exited (code : Nat) (errLog : List String)
deriving DecidableEq

/-- `AbiquoInventory.generate_inv_from_api`: a bad status on the
VM-collection fetch goes through `self.fail_with_error` (stderr write
then `sys.exit(1)`); an ordinary exception anywhere in the traversal is
caught by `except Exception`, the traceback is written to stderr and a
fresh `_empty_inventory()` is returned; a `SystemExit` raised by
`update_vm_metadata` propagates.  The loop starts from the
`_empty_inventory` built in `__init__` with all four loop locals
unbound. -/
def generate_inv_from_api (cfg : Config) (env : ApiEnv) : RunResult :=
  if env.vmsCode = 200 then
    match processVMs cfg env.vms ⟨empty_inventory, none, none, none, none⟩ with
    | .ok st => .ok st.inventory []
    | .error (.exc msg) => .ok empty_inventory ["Traceback: " ++ msg]
    | .error (.exit c) => .exited c ["Traceback: fail_with_error"]
  else .exited 1 ["Traceback: fail_with_error"]

/-- Group list of the returned document, for stating concrete runs. -/
def okGroups (r : RunResult) (g : String) : Option (List String) :=
  match r with
  | .ok inv _ => alookup inv.groups g
  | .exited _ _ => none

/-- Left-biased choice on options (`a` if present, else `b`). -/
def oor {α : Type} (a b : Option α) : Option α :=
  match a with
  | some v => some v
  | none => b

/-- The value the LAST assignment of `k` in an ordered assignment list
gives it — the value a Python dict holds after performing the
assignments in order. -/
def lookupLast (es : List (String × String)) (k : String) : Option String :=
  match es with
  | [] => none
  | kv :: rest => oor (lookupLast rest k) (if kv.1 = k then some kv.2 else none)

/-- All dict assignments a disk list performs, in order. -/
def diskEmitsAll (ds : List Disk) : List (String × String) :=
  ds.foldr (fun x acc => diskEmits x ++ acc) []

/-- The `_meta.hostvars` consistency invariant of an inventory
document: every identifier in any group list is a key of `hostvars`. -/
def InvGood (inv : Inventory) : Prop :=
  ∀ p ∈ inv.groups, ∀ id ∈ p.2, (alookup (inv.meta.getD []) id).isSome = true

/-- The message of the `NameError` raised by the enrichment handlers
that call the unbound name `fail_with_error`. -/
def nameErrorMsg : String :=
  "NameError: global name fail_with_error is not defined"

/-- Character-level specification of the sanitization, from the spec:
delete every literal bracket, replace every space by an underscore. -/
def sanitizeSpec (s : String) : String :=
  ⟨(s.toList.filter (fun c => !(c = '[' || c = ']'))).map
    (fun c => if c = ' ' then '_' else c)⟩

/-- Configuration for the C1 failing run: identifier policy by
`default_net_interface = nic0`, no other filters. -/
def cfgC1 : Config := ⟨false, false, false, "nic0"⟩

/-- C1 failing input, first VM: has a qualifying `nic0` link titled
`10.0.0.1` and the three grouping links; all sub-fetches succeed. -/
def vmC1a : VM :=
  ⟨"ON",
   [⟨"nic0", "10.0.0.1", "t"⟩, ⟨"virtualappliance", "vappA", "t"⟩,
    ⟨"virtualdatacenter", "vdcA", "t"⟩, ⟨"virtualmachinetemplate", "tmplA", "t"⟩],
   [], none, 200, [], 200, [], 200, [], 200, "tA", 200, "mA"⟩

/-- C1 failing input, second VM: an empty link list, hence no
qualifying link under the configured policy; all sub-fetches succeed. -/
def vmC1b : VM :=
  ⟨"ON", [], [], none, 200, [], 200, [], 200, [], 200, "tB", 200, "mB"⟩

/-- Configuration for the C2 failing run. -/
def cfgC2 : Config := ⟨false, false, false, "nic0"⟩

/-- C2 failing input: the NIC sub-fetch answers status 500. -/
def vmC2bad : VM :=
  ⟨"ON", [], [], none, 500, [], 200, [], 200, [], 200, "t", 200, "m"⟩

/-- C3 counterexample input: one top-level attribute whose key starts
with `abq` but not `abq_`. -/
def vmJ3cex : VMJson := ⟨[], [], [], [("abqfoo", "1")]⟩

/-- C3 witness input: one ordinary top-level attribute. -/
def vmJ3w : VMJson := ⟨[], [], [], [("name", "x")]⟩

/-- C4 witness interface: sequence 0, one attribute, two links whose
rels contain `network`. -/
def nicC4 : Nic :=
  ⟨0, [("ip", "10.0.0.9")],
   [⟨"privatenetwork", "net1", "t"⟩, ⟨"othernetwork", "net2", "t"⟩]⟩

/-- Configuration for the C5 witness run. -/
def cfgC5 : Config := ⟨false, false, false, "nic0"⟩

/-- C5 witness VM: qualifies and carries all three grouping links. -/
def vmC5 : VM :=
  ⟨"ON",
   [⟨"nic0", "10.0.0.5", "t"⟩, ⟨"virtualappliance", "vappC", "t"⟩,
    ⟨"virtualdatacenter", "vdcC", "t"⟩, ⟨"virtualmachinetemplate", "tmplC", "t"⟩],
   [], none, 200, [], 200, [], 200, [], 200, "tC", 200, "mC"⟩

/-- C5 witness environment. -/
def envC5 : ApiEnv := ⟨200, [vmC5]⟩

/-- The document the C5 witness run returns. -/
def invC5 : Inventory :=
  match generate_inv_from_api cfgC5 envC5 with
  | .ok inv _ => inv
  | .exited _ _ => empty_inventory

/-- C7 witness cache environment: all options present, file age 300
within a 600-second budget. -/
def cenvC7 : CacheEnv := ⟨some "/var/cache", some 100, some 600, 400⟩

/-- Configuration for the C8 witness run. -/
def cfgC8 : Config := ⟨false, false, false, "eth0"⟩

/-- C8 witness, first VM: processed successfully before the failure. -/
def vmC8a : VM :=
  ⟨"ON",
   [⟨"eth0", "192.168.0.8", "t"⟩, ⟨"virtualappliance", "vappE", "t"⟩,
    ⟨"virtualdatacenter", "vdcE", "t"⟩, ⟨"virtualmachinetemplate", "tmplE", "t"⟩],
   [], none, 200, [], 200, [], 200, [], 200, "tE", 200, "mE"⟩

/-- C8 witness, second VM: its volume sub-fetch answers 500, raising
the ordinary `NameError` mid-traversal. -/
def vmC8b : VM :=
  ⟨"ON", [], [], none, 200, [], 200, [], 500, [], 200, "tF", 200, "mF"⟩

/-- C8 witness environment: a successful VM followed by a failing one. -/
def envC8 : ApiEnv := ⟨200, [vmC8a, vmC8b]⟩

/-- C9 witness cache environment: fresh cache. -/
def cenvC9 : CacheEnv := ⟨some "/var/cache", some 0, some 100, 50⟩

/-- C10 witness VM: a hard disk and a volume sharing sequence 0, both
carrying a `sizeInMb` attribute with different values. -/
def vmC10 : VM :=
  ⟨"ON", [], [], none,
   200, [],
   200, [⟨0, [("sizeInMb", "10")], []⟩],
   200, [⟨0, [("sizeInMb", "99")], [⟨"tier0", "Gold", "t"⟩]⟩],
   200, "t", 200, "m"⟩

theorem oor_none_right {α : Type} (a : Option α) : oor a none = a := by
  cases a <;> rfl

theorem oor_assoc {α : Type} (a b c : Option α) :
    oor (oor a b) c = oor a (oor b c) := by
  cases a <;> rfl

theorem alookup_upsert {α : Type} (d : List (String × α)) (k k2 : String) (v : α) :
    alookup (upsert d k v) k2 = if k = k2 then some v else alookup d k2 := by
  induction d with
  | nil =>
    by_cases h : k = k2 <;> simp [upsert, alookup, h]
  | cons kv rest ih =>
    rw [upsert]
    by_cases hk : kv.1 = k
    · rw [if_pos hk]
      by_cases h2 : k = k2
      · simp [alookup, h2]
      · have hkv : ¬ kv.1 = k2 := by rw [hk]; exact h2
        simp [alookup, h2, hkv]
    · rw [if_neg hk]
      by_cases h2 : kv.1 = k2
      · have hne : ¬ k = k2 := fun he => hk (by rw [he, h2])
        simp [alookup, h2, hne]
      · simp [alookup, h2, ih]

theorem mem_upsert {α : Type} (d : List (String × α)) (k : String) (v : α)
    (p : String × α) (h : p ∈ upsert d k v) : p = (k, v) ∨ p ∈ d := by
  induction d with
  | nil => exact Or.inl (by simpa [upsert] using h)
  | cons kv rest ih =>
    by_cases hk : kv.1 = k
    · rw [upsert, if_pos hk] at h
      rcases List.mem_cons.1 h with h | h
      · exact Or.inl h
      · exact Or.inr (List.mem_cons_of_mem _ h)
    · rw [upsert, if_neg hk] at h
      rcases List.mem_cons.1 h with h | h
      · exact Or.inr (h ▸ List.mem_cons_self _ _)
      · rcases ih h with h2 | h2
        · exact Or.inl h2
        · exact Or.inr (List.mem_cons_of_mem _ h2)

theorem mem_keys_upsert {α : Type} (d : List (String × α)) (k k2 : String) (v : α)
    (h : k2 ∈ (upsert d k v).map Prod.fst) : k2 = k ∨ k2 ∈ d.map Prod.fst := by
  rcases List.mem_map.1 h with ⟨p, hp, hfst⟩
  rcases mem_upsert d k v p hp with h2 | h2
  · exact Or.inl (by rw [← hfst, h2])
  · exact Or.inr (hfst ▸ List.mem_map_of_mem Prod.fst h2)

theorem mem_keys_aremove {α : Type} (d : List (String × α)) (k k2 : String)
    (h : k2 ∈ (aremove d k).map Prod.fst) : k2 ∈ d.map Prod.fst ∧ k2 ≠ k := by
  induction d with
  | nil => simp [aremove] at h
  | cons kv rest ih =>
    by_cases hk : kv.1 = k
    · rw [aremove, if_pos hk] at h
      have h2 := ih h
      exact ⟨by simp only [List.map_cons, List.mem_cons]; exact Or.inr h2.1, h2.2⟩
    · rw [aremove, if_neg hk] at h
      simp only [List.map_cons, List.mem_cons] at h
      rcases h with h | h
      · subst h
        exact ⟨by simp, hk⟩
      · have h2 := ih h
        exact ⟨by simp only [List.map_cons, List.mem_cons]; exact Or.inr h2.1, h2.2⟩

theorem alookup_isSome_of_mem_keys {α : Type} (d : List (String × α)) (k : String)
    (h : k ∈ d.map Prod.fst) : (alookup d k).isSome = true := by
  induction d with
  | nil => simp at h
  | cons kv rest ih =>
    simp only [List.map_cons, List.mem_cons] at h
    by_cases hk : kv.1 = k
    · simp [alookup, hk]
    · rw [alookup, if_neg hk]
      rcases h with h | h
      · exact absurd h.symm hk
      · exact ih h

theorem alookup_mem {α : Type} (d : List (String × α)) (k : String) (v : α)
    (h : alookup d k = some v) : (k, v) ∈ d := by
  induction d with
  | nil => simp [alookup] at h
  | cons kv rest ih =>
    by_cases hk : kv.1 = k
    · rw [alookup, if_pos hk] at h
      have h2 : kv.2 = v := Option.some.inj h
      have h3 : kv = (k, v) := by
        cases kv
        simp only at hk h2
        rw [hk, h2]
      exact h3 ▸ List.mem_cons_self _ _
    · rw [alookup, if_neg hk] at h
      exact List.mem_cons_of_mem _ (ih h)

theorem lookupLast_append (l1 l2 : List (String × String)) (k : String) :
    lookupLast (l1 ++ l2) k = oor (lookupLast l2 k) (lookupLast l1 k) := by
  induction l1 with
  | nil => simp [lookupLast, oor_none_right]
  | cons kv rest ih =>
    rw [List.cons_append, lookupLast, lookupLast, ih, oor_assoc]

theorem alookup_applyEmits (es : List (String × String))
    (d : List (String × String)) (k : String) :
    alookup (applyEmits d es) k = oor (lookupLast es k) (alookup d k) := by
  induction es generalizing d with
  | nil => simp [applyEmits, lookupLast, oor]
  | cons kv rest ih =>
    rw [applyEmits, List.foldl_cons]
    have h1 : rest.foldl (fun d kv => upsert d kv.1 kv.2) (upsert d kv.1 kv.2)
        = applyEmits (upsert d kv.1 kv.2) rest := rfl
    rw [h1, ih, lookupLast, alookup_upsert, oor_assoc]
    by_cases h : kv.1 = k
    · simp [h, oor]
    · have h2 : ¬ k = kv.1 := fun he => h he.symm
      simp [h, h2, oor]

theorem diskEmitsAll_cons (x : Disk) (ds : List Disk) :
    diskEmitsAll (x :: ds) = diskEmits x ++ diskEmitsAll ds := rfl

theorem alookup_disk_fold (ds : List Disk) (d0 : List (String × String)) (k : String) :
    alookup (ds.foldl (fun d x => applyEmits d (diskEmits x)) d0) k
      = oor (lookupLast (diskEmitsAll ds) k) (alookup d0 k) := by
  induction ds generalizing d0 with
  | nil => simp [diskEmitsAll, lookupLast, oor]
  | cons x ds ih =>
    rw [List.foldl_cons, ih, diskEmitsAll_cons, lookupLast_append, alookup_applyEmits, oor_assoc]

theorem alookup_disk_json_to_dict (ds : List Disk) (k : String) :
    alookup (disk_json_to_dict ds) k = lookupLast (diskEmitsAll ds) k := by
  rw [disk_json_to_dict, alookup_disk_fold]
  simp [alookup, oor_none_right]

theorem strToList_mk (l : List Char) : (String.mk l).toList = l := rfl

theorem str_append_cancel_left (p a b : String) (h : p ++ a = p ++ b) : a = b := by
  have h2 := congrArg String.data h
  rw [String.data_append, String.data_append] at h2
  exact String.ext (List.append_cancel_left h2)

theorem abq_prefix_startsWith (i : String) : pyStartsWith ("abq_" ++ i) "abq" = true := by
  rw [pyStartsWith]
  have h : ("abq_" ++ i).toList = 'a' :: 'b' :: 'q' :: '_' :: i.toList := by
    have h2 : ("abq_" ++ i).data = "abq_".data ++ i.data := String.data_append ..
    exact h2
  rw [h]
  simp [prefixOfCheck, String.toList]

theorem find?_eq_head_filter {α : Type} (p : α → Bool) (l : List α) :
    l.find? p = (l.filter p).head? := (List.filter_head? p l).symm

theorem pyReplace1_del (s : String) (c : Char) :
    pyReplace1 s c "" = ⟨s.toList.filter (fun a => !(a = c))⟩ := by
  rw [pyReplace1]
  congr 1
  have he : "".toList = ([] : List Char) := rfl
  induction s.toList with
  | nil => rfl
  | cons a l ih =>
    rw [List.foldr_cons, ih, List.filter_cons]
    by_cases h : a = c
    · simp [h, he]
    · simp [h]

theorem pyReplace1_space (s : String) :
    pyReplace1 s ' ' "_" = ⟨s.toList.map (fun a => if a = ' ' then '_' else a)⟩ := by
  rw [pyReplace1]
  congr 1
  have he : "_".toList = ['_'] := rfl
  induction s.toList with
  | nil => rfl
  | cons a l ih =>
    rw [List.foldr_cons, ih, List.map_cons]
    by_cases h : a = ' '
    · simp [h, he]
    · simp [h]

theorem sanitize_spec (s : String) : sanitize s = sanitizeSpec s := by
  rw [sanitize, pyReplace1_del, pyReplace1_del, pyReplace1_space, sanitizeSpec,
    strToList_mk, strToList_mk, List.filter_filter]
  congr 1
  apply congrArg
  apply List.filter_congr
  intro a _
  by_cases h1 : a = '[' <;> by_cases h2 : a = ']' <;> simp [h1, h2]

theorem renameFold_keys (todo : List String) (d : List (String × String))
    (h : ∀ k ∈ d.map Prod.fst, pyStartsWith k "abq" = true ∨ k ∈ todo) :
    ∀ k ∈ (todo.foldl renameStep d).map Prod.fst, pyStartsWith k "abq" = true := by
  induction todo generalizing d with
  | nil =>
    intro k hk
    rcases h k hk with h2 | h2
    · exact h2
    · simp at h2
  | cons i rest ih =>
    intro k hk
    rw [List.foldl_cons] at hk
    refine ih (renameStep d i) ?_ k hk
    intro k2 hk2
    rw [renameStep] at hk2
    by_cases hi : pyStartsWith i "abq" = true
    · rw [if_pos hi] at hk2
      rcases h k2 hk2 with h2 | h2
      · exact Or.inl h2
      · rcases List.mem_cons.1 h2 with h3 | h3
        · exact Or.inl (h3 ▸ hi)
        · exact Or.inr h3
    · rw [if_neg hi] at hk2
      cases halo : alookup d i with
      | none =>
        rw [halo] at hk2
        rcases h k2 hk2 with h2 | h2
        · exact Or.inl h2
        · rcases List.mem_cons.1 h2 with h3 | h3
          · exfalso
            have h4 := alookup_isSome_of_mem_keys d i (h3 ▸ hk2)
            rw [halo] at h4
            simp at h4
          · exact Or.inr h3
      | some v =>
        rw [halo] at hk2
        rcases mem_keys_upsert _ _ _ _ hk2 with h2 | h2
        · refine Or.inl ?_
          rw [h2]
          exact abq_prefix_startsWith i
        · have h3 := mem_keys_aremove d i k2 h2
          rcases h k2 h3.1 with h4 | h4
          · exact Or.inl h4
          · rcases List.mem_cons.1 h4 with h5 | h5
            · exact absurd h5 h3.2
            · exact Or.inr h5

theorem renameKeys_keys (d : List (String × String)) (k : String)
    (h : k ∈ (renameKeys d).map Prod.fst) : pyStartsWith k "abq" = true :=
  renameFold_keys (d.map Prod.fst) d (fun _ hk2 => Or.inr hk2) k h

theorem lookupLast_singleton (kv : String × String) (k : String) :
    lookupLast [kv] k = if kv.1 = k then some kv.2 else none := rfl

theorem lookupLast_map_notmem (entries : List (String × String)) (pre a : String)
    (h : a ∉ entries.map Prod.fst) :
    lookupLast (entries.map (fun kv => (pre ++ kv.1, kv.2))) (pre ++ a) = none := by
  induction entries with
  | nil => rfl
  | cons kv rest ih =>
    rw [List.map_cons, lookupLast]
    have h1 : a ∉ rest.map Prod.fst := by
      intro hm
      exact h (by rw [List.map_cons]; exact List.mem_cons_of_mem _ hm)
    have hne : ¬ (pre ++ kv.1 = pre ++ a) := by
      intro he
      have h2 := str_append_cancel_left pre kv.1 a he
      exact h (by rw [List.map_cons]; exact List.mem_cons.2 (Or.inl h2.symm))
    rw [ih h1, if_neg hne]
    rfl

theorem lookupLast_map_mem (entries : List (String × String)) (pre a v : String)
    (hnd : (entries.map Prod.fst).Nodup) (hm : (a, v) ∈ entries) :
    lookupLast (entries.map (fun kv => (pre ++ kv.1, kv.2))) (pre ++ a) = some v := by
  induction entries with
  | nil => simp at hm
  | cons kv rest ih =>
    rw [List.map_cons, lookupLast]
    rcases List.mem_cons.1 hm with h1 | h1
    · have hk1 : kv.1 = a := by rw [← h1]
      have hnotin : a ∉ rest.map Prod.fst := by
        rw [List.map_cons] at hnd
        have h2 := (List.nodup_cons.1 hnd).1
        rw [hk1] at h2
        exact h2
      rw [lookupLast_map_notmem rest pre a hnotin]
      show (if pre ++ kv.1 = pre ++ a then some kv.2 else none) = some v
      have hv : kv.2 = v := by rw [← h1]
      rw [hk1, if_pos rfl, hv]
    · have hnd2 : (rest.map Prod.fst).Nodup := by
        rw [List.map_cons] at hnd
        exact (List.nodup_cons.1 hnd).2
      rw [ih hnd2 h1]
      rfl

theorem isSome_alookup_upsert {α : Type} (d : List (String × α)) (k k2 : String) (v : α)
    (h : (alookup d k2).isSome = true) : (alookup (upsert d k v) k2).isSome = true := by
  rw [alookup_upsert]
  by_cases he : k = k2 <;> simp [he, h]

theorem addToGroup_meta (inv : Inventory) (g id : String) :
    (inv.addToGroup g id).meta = inv.meta := by
  rw [Inventory.addToGroup]
  cases alookup inv.groups g <;> rfl

theorem InvGood_empty : InvGood empty_inventory := by
  intro p hp
  simp [empty_inventory] at hp

theorem InvGood_setHostvar (inv : Inventory) (id : String) (hv : List (String × String))
    (h : InvGood inv) : InvGood (inv.setHostvar id hv) := by
  intro p hp id2 hid2
  show (alookup (upsert (inv.meta.getD []) id hv) id2).isSome = true
  exact isSome_alookup_upsert _ id id2 hv (h p hp id2 hid2)

theorem setHostvar_self (inv : Inventory) (id : String) (hv : List (String × String)) :
    (alookup ((inv.setHostvar id hv).meta.getD []) id).isSome = true := by
  show (alookup (upsert (inv.meta.getD []) id hv) id).isSome = true
  rw [alookup_upsert, if_pos rfl]
  rfl

theorem addToGroup_hostvar_kept (inv : Inventory) (g id id2 : String)
    (h : (alookup (inv.meta.getD []) id2).isSome = true) :
    (alookup ((inv.addToGroup g id).meta.getD []) id2).isSome = true := by
  rw [addToGroup_meta]
  exact h

theorem InvGood_addToGroup (inv : Inventory) (g id : String)
    (h : InvGood inv) (hid : (alookup (inv.meta.getD []) id).isSome = true) :
    InvGood (inv.addToGroup g id) := by
  intro p hp id2 hid2
  rw [addToGroup_meta]
  rw [Inventory.addToGroup] at hp
  cases halo : alookup inv.groups g with
  | none =>
    rw [halo] at hp
    rcases List.mem_append.1 hp with h2 | h2
    · exact h p h2 id2 hid2
    · have h3 : p = (g, [id]) := by simpa using h2
      rw [h3] at hid2
      have h4 : id2 = id := by simpa using hid2
      rw [h4]
      exact hid
  | some l =>
    rw [halo] at hp
    rcases mem_upsert _ _ _ _ hp with h2 | h2
    · rw [h2] at hid2
      rcases List.mem_append.1 hid2 with h3 | h3
      · exact h (g, l) (alookup_mem _ _ _ halo) id2 h3
      · have h4 : id2 = id := by simpa using h3
        rw [h4]
        exact hid
    · exact h p h2 id2 hid2

theorem InvGood_varfold (vs : List (String × String)) (inv : Inventory) (id : String)
    (h : InvGood inv) (hid : (alookup (inv.meta.getD []) id).isSome = true) :
    InvGood (vs.foldl
      (fun inv kv => inv.addToGroup ("var_" ++ sanitize kv.1 ++ "_" ++ sanitize kv.2) id) inv) := by
  induction vs generalizing inv with
  | nil => exact h
  | cons kv rest ih =>
    rw [List.foldl_cons]
    exact ih _ (InvGood_addToGroup _ _ _ h hid) (addToGroup_hostvar_kept _ _ _ _ hid)

theorem InvGood_addVarGroups (inv : Inventory) (vars : Option (List (String × String)))
    (id : String) (h : InvGood inv)
    (hid : (alookup (inv.meta.getD []) id).isSome = true) :
    InvGood (addVarGroups inv vars id) := by
  cases vars with
  | none => exact h
  | some vs => exact InvGood_varfold vs inv id h hid

theorem recordVM_InvGood (inv : Inventory) (nic : String) (hv : List (String × String))
    (vt va vd hw : String) (vars : Option (List (String × String)))
    (h : InvGood inv) : InvGood (recordVM inv nic hv vt va vd hw vars) := by
  have h1 := InvGood_setHostvar inv nic hv h
  have m1 := setHostvar_self inv nic hv
  have h2 := InvGood_addToGroup _ ("template_" ++ vt) nic h1 m1
  have m2 := addToGroup_hostvar_kept _ ("template_" ++ vt) nic nic m1
  have h3 := InvGood_addToGroup _ ("vapp_" ++ va) nic h2 m2
  have m3 := addToGroup_hostvar_kept _ ("vapp_" ++ va) nic nic m2
  have h4 := InvGood_addToGroup _ ("vdc_" ++ vd) nic h3 m3
  have m4 := addToGroup_hostvar_kept _ ("vdc_" ++ vd) nic nic m3
  have h5 := InvGood_addToGroup _ ("vdc_" ++ vd ++ "_vapp_" ++ va) nic h4 m4
  have m5 := addToGroup_hostvar_kept _ ("vdc_" ++ vd ++ "_vapp_" ++ va) nic nic m4
  show InvGood (addVarGroups
    (if hw ≠ "" then ((((inv.setHostvar nic hv).addToGroup ("template_" ++ vt) nic).addToGroup
        ("vapp_" ++ va) nic |>.addToGroup ("vdc_" ++ vd) nic |>.addToGroup
        ("vdc_" ++ vd ++ "_vapp_" ++ va) nic).addToGroup ("hwprof_" ++ hw) nic)
      else ((((inv.setHostvar nic hv).addToGroup ("template_" ++ vt) nic).addToGroup
        ("vapp_" ++ va) nic |>.addToGroup ("vdc_" ++ vd) nic |>.addToGroup
        ("vdc_" ++ vd ++ "_vapp_" ++ va) nic)) ) vars nic)
  by_cases hhw : hw ≠ ""
  · rw [if_pos hhw]
    exact InvGood_addVarGroups _ _ _ (InvGood_addToGroup _ _ _ h5 m5)
      (addToGroup_hostvar_kept _ _ _ _ m5)
  · rw [if_neg hhw]
    exact InvGood_addVarGroups _ _ _ h5 m5

theorem processVMCore_InvGood (cfg : Config) (st : LoopState) (vm : VM)
    (nics : List Nic) (disks : List Disk) (st2 : LoopState)
    (h : processVMCore cfg st vm nics disks = .ok st2)
    (hg : InvGood st.inventory) : InvGood st2.inventory := by
  simp only [processVMCore] at h
  split at h
  · simp at h
  · injection h with h2
    rw [← h2]
    exact hg
  · split at h
    · injection h with h2
      rw [← h2]
      exact hg
    · split at h
      · injection h with h2
        rw [← h2]
        exact recordVM_InvGood _ _ _ _ _ _ _ _ hg
      · simp at h

theorem processVM_InvGood (cfg : Config) (st : LoopState) (vm : VM) (st2 : LoopState)
    (h : processVM cfg st vm = .ok st2) (hg : InvGood st.inventory) :
    InvGood st2.inventory := by
  rw [processVM] at h
  split at h
  · simp at h
  · split at h
    · simp at h
    · split at h
      · simp at h
      · exact processVMCore_InvGood _ _ _ _ _ _ h hg

theorem processVMs_InvGood (cfg : Config) (vms : List VM) (st st2 : LoopState)
    (h : processVMs cfg vms st = .ok st2) (hg : InvGood st.inventory) :
    InvGood st2.inventory := by
  induction vms generalizing st with
  | nil =>
    rw [processVMs] at h
    injection h with h2
    rw [← h2]
    exact hg
  | cons vm rest ih =>
    rw [processVMs] at h
    cases hpv : processVM cfg st vm with
    | ok st3 =>
      rw [hpv] at h
      exact ih st3 h (processVM_InvGood cfg st vm st3 hpv hg)
    | error e =>
      rw [hpv] at h
      simp at h

theorem diskEmitsAll_append (A B : List Disk) :
    diskEmitsAll (A ++ B) = diskEmitsAll A ++ diskEmitsAll B := by
  induction A with
  | nil => rfl
  | cons x xs ih =>
    rw [List.cons_append, diskEmitsAll_cons, diskEmitsAll_cons, ih, List.append_assoc]

/-- Claim C1 (code bug in the source): a VM whose link list holds no
qualifying link is supposed to be skipped with no entry, but when the
link list is empty the selection loop never assigns `vm_nic`, and the
value leaked from the previous iteration is reused: here the empty-link
VM `vmC1b` is recorded under the identifier `10.0.0.1` of the previous
VM, appending it a second time to that VM's groups instead of being
skipped (compare the run without `vmC1b`). -/
theorem claim_C1_skip_law_violated :
    (∀ l ∈ vmC1b.links, nicPred cfgC1 l = false) ∧
    okGroups (generate_inv_from_api cfgC1 ⟨200, [vmC1a, vmC1b]⟩) "template_tmplA"
      = some ["10.0.0.1", "10.0.0.1"] ∧
    okGroups (generate_inv_from_api cfgC1 ⟨200, [vmC1a]⟩) "template_tmplA"
      = some ["10.0.0.1"] :=
  ⟨by decide, by decide, by decide⟩

/-- Claim C2 (code bug in the source): a non-2xx status on the NIC
sub-fetch is meant to abort the process with a non-zero exit, but the
handler calls the unbound name `fail_with_error`, so the resulting
`NameError` is caught by `except Exception` and the generator returns
the empty inventory document — the process then exits normally. -/
theorem claim_C2_subfetch_not_fatal :
    vmC2bad.nicsCode = 500 ∧
    generate_inv_from_api cfgC2 ⟨200, [vmC2bad]⟩
      = .ok empty_inventory ["Traceback: " ++ nameErrorMsg] :=
  ⟨rfl, by decide⟩

/-- Claim C3 counterexample: the attribute key `abqfoo` passes the
`startswith` check of the renaming pass unchanged, so it appears in the
result of `vars_from_json` without the prepended `abq_` prefix. -/
theorem claim_C3_counterexample :
    "abqfoo" ∈ (vars_from_json vmJ3cex).map Prod.fst ∧
    pyStartsWith "abqfoo" "abq_" = false :=
  ⟨by decide, by decide⟩

/-- Claim C3 (amended): every key of the mapping returned by
`vars_from_json` begins with `abq` — the prefix the renaming pass
actually checks; keys not beginning with `abq` are renamed by
prepending `abq_`, while keys already beginning with `abq` (even
without the underscore) are kept as they are. -/
theorem claim_C3_keys_abq_prefixed (vm : VMJson) (k : String)
    (h : k ∈ (vars_from_json vm).map Prod.fst) : pyStartsWith k "abq" = true :=
  renameKeys_keys _ k h

/-- Claim C3 witness: concrete run of the amended statement. -/
theorem claim_C3_witness :
    "abq_name" ∈ (vars_from_json vmJ3w).map Prod.fst ∧
    pyStartsWith "abq_name" "abq" = true :=
  ⟨by decide, claim_C3_keys_abq_prefixed vmJ3w "abq_name" (by decide)⟩

/-- Claim C4: per-interface contract of `nic_json_to_dict` — every
non-`links` attribute `a` is emitted as `nic<sequence>_<a>`, and
`nic<sequence>_net_type` is set to the rel of the first link whose rel
contains `network` (first match wins), with no such field when no link
matches (and no attribute is itself named `net_type`). -/
theorem claim_C4_nic_flattening (nic : Nic)
    (hnd : (nic.entries.map Prod.fst).Nodup) :
    (∀ a v, (a, v) ∈ nic.entries → a ≠ "net_type" →
      alookup (nic_json_to_dict [nic]) ("nic" ++ Nat.repr nic.sequence ++ "_" ++ a)
        = some v) ∧
    (∀ l : Link, nic.links.find? (fun x => pyContains x.rel "network") = some l →
      alookup (nic_json_to_dict [nic]) ("nic" ++ Nat.repr nic.sequence ++ "_net_type")
        = some l.rel) ∧
    (nic.links.find? (fun x => pyContains x.rel "network") = none →
      "net_type" ∉ nic.entries.map Prod.fst →
      alookup (nic_json_to_dict [nic]) ("nic" ++ Nat.repr nic.sequence ++ "_net_type")
        = none) := by
  have hbase : ∀ k, alookup (nic_json_to_dict [nic]) k = lookupLast (nicEmits nic) k := by
    intro k
    have h0 : nic_json_to_dict [nic] = applyEmits [] (nicEmits nic) := rfl
    rw [h0, alookup_applyEmits]
    exact oor_none_right _
  have hsplit : ("nic" ++ Nat.repr nic.sequence) ++ "_net_type"
      = (("nic" ++ Nat.repr nic.sequence) ++ "_") ++ "net_type" := by
    rw [String.append_assoc ("nic" ++ Nat.repr nic.sequence) "_" "net_type"]
    have h1 : ("_" : String) ++ "net_type" = "_net_type" := rfl
    rw [h1]
  refine ⟨?_, ?_, ?_⟩
  · intro a v hm hne
    rw [hbase]
    rcases hfl : nic.links.filter (fun x => pyContains x.rel "network") with _ | ⟨l0, lt⟩
    · have hemits : nicEmits nic
          = nic.entries.map (fun kv => ("nic" ++ Nat.repr nic.sequence ++ "_" ++ kv.1, kv.2)) := by
        simp only [nicEmits, hfl, List.append_nil]
      rw [hemits]
      exact lookupLast_map_mem _ _ a v hnd hm
    · have hemits : nicEmits nic
          = nic.entries.map (fun kv => ("nic" ++ Nat.repr nic.sequence ++ "_" ++ kv.1, kv.2))
            ++ [("nic" ++ Nat.repr nic.sequence ++ "_net_type", l0.rel)] := by
        simp only [nicEmits, hfl]
      rw [hemits, lookupLast_append, lookupLast_singleton]
      have hne2 : ¬ (("nic" ++ Nat.repr nic.sequence) ++ "_net_type"
          = "nic" ++ Nat.repr nic.sequence ++ "_" ++ a) := by
        rw [hsplit]
        intro he
        exact hne (str_append_cancel_left _ _ _ he).symm
      rw [if_neg hne2]
      exact lookupLast_map_mem _ _ a v hnd hm
  · intro l hfind
    rw [hbase]
    rw [find?_eq_head_filter] at hfind
    rcases hfl : nic.links.filter (fun x => pyContains x.rel "network") with _ | ⟨l0, lt⟩
    · rw [hfl] at hfind
      simp at hfind
    · rw [hfl] at hfind
      have hl0 : l0 = l := by simpa using hfind
      have hemits : nicEmits nic
          = nic.entries.map (fun kv => ("nic" ++ Nat.repr nic.sequence ++ "_" ++ kv.1, kv.2))
            ++ [("nic" ++ Nat.repr nic.sequence ++ "_net_type", l0.rel)] := by
        simp only [nicEmits, hfl]
      rw [hemits, lookupLast_append, lookupLast_singleton, if_pos rfl, hl0]
      rfl
  · intro hfind hnotin
    rw [hbase]
    rw [find?_eq_head_filter] at hfind
    have hfl : nic.links.filter (fun x => pyContains x.rel "network") = [] := by
      cases hfl2 : nic.links.filter (fun x => pyContains x.rel "network") with
      | nil => rfl
      | cons l0 lt =>
        rw [hfl2] at hfind
        simp at hfind
    have hemits : nicEmits nic
        = nic.entries.map (fun kv => ("nic" ++ Nat.repr nic.sequence ++ "_" ++ kv.1, kv.2)) := by
      simp only [nicEmits, hfl, List.append_nil]
    rw [hemits, hsplit]
    exact lookupLast_map_notmem _ _ _ hnotin

/-- Claim C4 witness: concrete interface with two `network` links — the
first one wins — and one ordinary attribute. -/
theorem claim_C4_witness :
    (nicC4.entries.map Prod.fst).Nodup ∧
    alookup (nic_json_to_dict [nicC4]) "nic0_ip" = some "10.0.0.9" ∧
    alookup (nic_json_to_dict [nicC4]) "nic0_net_type" = some "privatenetwork" := by
  refine ⟨by decide, ?_, ?_⟩
  · exact (claim_C4_nic_flattening nicC4 (by decide)).1 "ip" "10.0.0.9" (by decide) (by decide)
  · exact (claim_C4_nic_flattening nicC4 (by decide)).2.1 ⟨"privatenetwork", "net1", "t"⟩ (by decide)

/-- Claim C5: every document `generate_inv_from_api` returns — whether
the traversal completes or is aborted by a caught exception — satisfies
the invariant that every host identifier in any group list is a key of
the `_meta.hostvars` mapping. -/
theorem claim_C5_group_ids_in_hostvars (cfg : Config) (env : ApiEnv)
    (inv : Inventory) (lg : List String)
    (h : generate_inv_from_api cfg env = .ok inv lg) : InvGood inv := by
  rw [generate_inv_from_api] at h
  by_cases h200 : env.vmsCode = 200
  · rw [if_pos h200] at h
    cases hp : processVMs cfg env.vms ⟨empty_inventory, none, none, none, none⟩ with
    | ok st =>
      rw [hp] at h
      injection h with h2 h3
      rw [← h2]
      exact processVMs_InvGood cfg env.vms _ st hp InvGood_empty
    | error e =>
      rw [hp] at h
      cases e with
      | exc msg =>
        injection h with h2 h3
        rw [← h2]
        exact InvGood_empty
      | exit c => simp at h
  · rw [if_neg h200] at h
    simp at h

/-- Claim C5 witness: the invariant holds for the document of a
concrete completed run. -/
theorem claim_C5_witness : InvGood invC5 :=
  claim_C5_group_ids_in_hostvars cfgC5 envC5 invC5 [] (by decide)

/-- Claim C6: the chained `replace` sanitization deletes every literal
bracket and turns every space into an underscore, and the title
`[Main DC]` becomes `Main_DC`. -/
theorem claim_C6_sanitization :
    (∀ s : String, sanitize s = sanitizeSpec s) ∧ sanitize "[Main DC]" = "Main_DC" :=
  ⟨sanitize_spec, by decide⟩

/-- Claim C7: `cache_available` is true exactly when a cache directory
is configured, `os.stat` succeeds, a max age is configured, and the
file age does not exceed it. -/
theorem claim_C7_cache_available_iff (e : CacheEnv) :
    cache_available e = true ↔
      (e.cache_dir.isSome = true ∧
        ∃ m, e.stat_mtime = some m ∧ ∃ a, e.cache_max_age = some a ∧ e.now - m ≤ a) := by
  rcases e with ⟨cd, sm, cma, now⟩
  cases cd <;> cases sm <;> cases cma <;> simp [cache_available]

/-- Claim C8: every ordinary exception raised during the per-VM
traversal makes `generate_inv_from_api` return exactly the empty
inventory document with a traceback on the error stream — never a
partial document. -/
theorem claim_C8_exception_yields_empty (cfg : Config) (env : ApiEnv) (msg : String)
    (h200 : env.vmsCode = 200)
    (h : processVMs cfg env.vms ⟨empty_inventory, none, none, none, none⟩
      = .error (.exc msg)) :
    generate_inv_from_api cfg env = .ok empty_inventory ["Traceback: " ++ msg] := by
  rw [generate_inv_from_api, if_pos h200, h]

/-- Claim C8 witness: a run whose first VM is recorded and whose second
VM raises mid-traversal still returns the empty document. -/
theorem claim_C8_witness :
    processVMs cfgC8 envC8.vms ⟨empty_inventory, none, none, none, none⟩
        = .error (.exc nameErrorMsg) ∧
    generate_inv_from_api cfgC8 envC8
        = .ok empty_inventory ["Traceback: " ++ nameErrorMsg] :=
  ⟨rfl, claim_C8_exception_yields_empty cfgC8 envC8 nameErrorMsg rfl rfl⟩

/-- Claim C9: with a fresh cache and no forced refresh, a failed cache
read makes the program emit the bare empty mapping, which is not the
empty inventory document. -/
theorem claim_C9_bare_empty_on_cache_read_failure (cenv : CacheEnv) (gen : Inventory)
    (h : cache_available cenv = true) :
    mainOutput false cenv (.error ()) gen = ⟨none, []⟩ ∧
    (⟨none, []⟩ : Inventory) ≠ empty_inventory := by
  constructor
  · simp [mainOutput, h, get_cache]
  · decide

/-- Claim C9 witness: concrete fresh-cache environment. -/
theorem claim_C9_witness :
    cache_available cenvC9 = true ∧
    mainOutput false cenvC9 (.error ()) empty_inventory = ⟨none, []⟩ :=
  ⟨by decide, (claim_C9_bare_empty_on_cache_read_failure cenvC9 empty_inventory (by decide)).1⟩

/-- Claim C10: `update_vm_disks_and_nics` appends volume records after
hard-disk records in the shared `disks` list, and any key a volume
emits in `disk_json_to_dict` ends up holding the volume's value —
overwriting whatever a hard disk wrote under the same
`disk<sequence>_<attribute>` key. -/
theorem claim_C10_volume_overwrites_harddisk (vm : VM) (k v : String)
    (hn : vm.nicsCode = 200) (hd : vm.disksCode = 200) (hv200 : vm.volsCode = 200)
    (h : lookupLast (diskEmitsAll vm.volsPayload) k = some v) :
    update_vm_disks_and_nics vm = .ok (vm.nicsPayload, vm.disksPayload ++ vm.volsPayload) ∧
    alookup (disk_json_to_dict (vm.disksPayload ++ vm.volsPayload)) k = some v := by
  constructor
  · simp [update_vm_disks_and_nics, get_vm_nics, get_vm_disks, get_vm_volumes,
      check_response, hn, hd, hv200]
  · rw [alookup_disk_json_to_dict, diskEmitsAll_append, lookupLast_append, h]
    rfl

/-- Claim C10 witness: a hard disk and a volume sharing sequence 0 —
the volume's `sizeInMb` value 99 replaces the hard disk's 10. -/
theorem claim_C10_witness :
    lookupLast (diskEmitsAll vmC10.volsPayload) "disk0_sizeInMb" = some "99" ∧
    alookup (disk_json_to_dict vmC10.disksPayload) "disk0_sizeInMb" = some "10" ∧
    update_vm_disks_and_nics vmC10
      = .ok (vmC10.nicsPayload, vmC10.disksPayload ++ vmC10.volsPayload) ∧
    alookup (disk_json_to_dict (vmC10.disksPayload ++ vmC10.volsPayload)) "disk0_sizeInMb"
      = some "99" := by
  refine ⟨by decide, by decide, ?_, ?_⟩
  · exact (claim_C10_volume_overwrites_harddisk vmC10 "disk0_sizeInMb" "99"
      rfl rfl rfl (by decide)).1
  · exact (claim_C10_volume_overwrites_harddisk vmC10 "disk0_sizeInMb" "99"
      rfl rfl rfl (by decide)).2
